import Mathlib

/-!
Verification development for the diurnal-cycle pipeline of the hfutils
repository (src/hfutils/diurnal_cycle.py).

Modelling conventions (shallow embedding):

* Timestamps are integers: seconds since the epoch.  All datasets relevant
  to the claims carry whole-second timestamps, and every duration produced
  by the code is a whole number of seconds, so a 1-second granularity is
  faithful.
* Longitudes are exact rationals.  The source computes
  `(longitude * 12/180) * 60**2` in float64; we model the arithmetic
  exactly over the rationals.  The subsequent `.astype(timedelta64[s])`
  cast from float truncates toward zero (C float-to-int conversion),
  modelled by `truncZ`.
* numpy `astype` between two timedelta64 units preserves the represented
  duration; conversion to a coarser unit floor-divides the stored count
  (also for negative values), modelled by `Int.fdiv`.  In particular
  `x.astype(timedelta64[Rs])` stores `fdiv x R`, a duration of
  `fdiv x R * R` seconds, and the multiplication `* R` that follows in the
  source scales that duration by a further factor `R`.
* Missing values (NaN) are modelled by `Option`: `none` is missing.
* The single `ValueError` of the source (the NonUniformSamplingError of
  the spec) and the `IndexError` raised by indexing an empty array are the
  two constructors of `ResErr`; fallible functions return `Except`.
-/

/-- Truncation toward zero of a rational, the semantics of the numpy cast
from float64 to an integer dtype (and hence to `timedelta64[s]`). -/
def truncZ (q : ℚ) : ℤ :=
  if 0 ≤ q then ⌊q⌋ else ⌈q⌉

/-- Embeds line 39 of diurnal_cycle.py:
`((longitude * 12/180) * 60**2).astype(timedelta64[s])` — the raw
local-time offset of one longitude, in whole seconds. -/
def rawOffset (lon : ℚ) : ℤ :=
  truncZ (lon * 12 / 180 * 3600)

/-- Embeds lines 41-48 of diurnal_cycle.py, the offset actually added to
the reference datetimes, in seconds.

With `keep = true` the source computes
`offset.astype(timedelta64[{R}s]) * R`: the astype stores
`fdiv (rawOffset lon) R` in units of R seconds (duration
`fdiv (rawOffset lon) R * R`), and the `* R` multiplies that stored count,
so the resulting duration is `fdiv (rawOffset lon) R * R * R` seconds.
With `center = true` (only reachable under `keep = true`) the source then
adds `np.array(R/2).astype(timedelta64[s])`, i.e. `truncZ (R / 2)`
seconds. -/
def localTimeOffset (lon : ℚ) (R : ℤ) (keep center : Bool) : ℤ :=
  if keep then
    if center then Int.fdiv (rawOffset lon) R * R * R + truncZ ((R : ℚ) / 2)
    else Int.fdiv (rawOffset lon) R * R * R
  else rawOffset lon

/-- Embeds get_approx_localtime (diurnal_cycle.py lines 7-50) pointwise:
the local time assigned to one (reference time, longitude) pair. -/
def get_approx_localtime (reference : ℤ) (lon : ℚ) (R : ℤ)
    (keep center : Bool) : ℤ :=
  reference + localTimeOffset lon R keep center

/-- Consecutive differences, `time.diff(dim="time")`. -/
def diffList : List ℤ → List ℤ
  | [] => []
  | [_] => []
  | a :: b :: rest => (b - a) :: diffList (b :: rest)

/-- Insert into a sorted list (helper for the model of np.unique). -/
def insertSorted (a : ℤ) : List ℤ → List ℤ
  | [] => [a]
  | b :: bs => if a ≤ b then a :: b :: bs else b :: insertSorted a bs

/-- Insertion sort (helper for the model of np.unique). -/
def sortInts : List ℤ → List ℤ
  | [] => []
  | a :: as => insertSorted a (sortInts as)

/-- Remove duplicates from a sorted list (helper for np.unique). -/
def dedupSorted : List ℤ → List ℤ
  | [] => []
  | [a] => [a]
  | a :: b :: rest =>
      if a = b then dedupSorted (b :: rest)
      else a :: dedupSorted (b :: rest)

/-- Model of np.unique on integers: the sorted list of distinct values. -/
def npUnique (xs : List ℤ) : List ℤ :=
  dedupSorted (sortInts xs)

/-- The two failure modes of _get_time_resolution: the explicit
ValueError for non-uniform sampling (the NonUniformSamplingError of the
spec) and the IndexError of `unique_time_dels[0]` on an empty array. -/
inductive ResErr where
  | nonUniform : ResErr
  | indexError : ResErr
deriving DecidableEq

/-- Embeds _get_time_resolution (diurnal_cycle.py lines 53-83):
`np.unique(time.diff(dim="time")).astype(timedelta64[s])`, a length
check raising ValueError, otherwise `unique_time_dels[0].astype(int)`.
At whole-second granularity both astype calls are the identity; indexing
the empty diff array of a short time coordinate raises IndexError. -/
def get_time_resolution (ts : List ℤ) : Except ResErr ℤ :=
  if 1 < (npUnique (diffList ts)).length then Except.error ResErr.nonUniform
  else
    match npUnique (diffList ts) with
    | [] => Except.error ResErr.indexError
    | d :: _ => Except.ok d

/-- Reading of the spec sentence for claim C3: the gaps between the
sorted, deduplicated timestamps of the coordinate.  The source itself
takes the gaps of the coordinate as given (no sorting, no deduplication
of the timestamps); this definition exists only to compare the two. -/
def sortedDedupGaps (ts : List ℤ) : List ℤ :=
  diffList (npUnique ts)

/-- A gridded dataset as consumed by avg_diurnal_cycle: a time
coordinate (seconds since epoch), a longitude coordinate, and one
(possibly missing) value per (lon index, time index) pair.  Additional
broadcast dimensions of the real dataset act pointwise and are not
modelled. -/
structure DSet where
  times : List ℤ
  lons : List ℚ
  val : ℕ → ℕ → Option ℚ

/-- Time-of-day in seconds since midnight, the grouping key produced by
`groupby("local_time.time")` for a whole-second timestamp. -/
def timeOfDay (t : ℤ) : ℤ :=
  Int.emod t 86400

/-- Index pairs of the stacked (lon, time) dimension created by
`dset.stack(local_time=("lon", "time"))`. -/
def sampleIdx (d : DSet) : List (ℕ × ℕ) :=
  (List.range d.lons.length).flatMap
    (fun i => (List.range d.times.length).map (fun j => (i, j)))

/-- Grouping key of one stacked sample: the time-of-day of its
approximate local time. -/
def sampleKey (d : DSet) (R : ℤ) (keep center : Bool) (ij : ℕ × ℕ) : ℤ :=
  timeOfDay
    (get_approx_localtime (d.times.getD ij.2 0) (d.lons.getD ij.1 0) R
      keep center)

/-- The grouping keys of all stacked samples. -/
def stackedKeys (d : DSet) (R : ℤ) (keep center : Bool) : List ℤ :=
  (sampleIdx d).map (sampleKey d R keep center)

/-- The values of the stacked samples whose key is k: the contents of
one time-of-day group. -/
def bucketVals (d : DSet) (R : ℤ) (keep center : Bool) (k : ℤ) :
    List (Option ℚ) :=
  ((sampleIdx d).filter (fun ij => sampleKey d R keep center ij == k)).map
    (fun ij => d.val ij.1 ij.2)

/-- Mean with skipna=True over possibly missing values: the arithmetic
mean of the present values, or missing when all values are missing. -/
def meanSkipNA (vals : List (Option ℚ)) : Option ℚ :=
  match vals.filterMap id with
  | [] => none
  | p :: ps => some ((p :: ps).sum / ((p :: ps).length : ℚ))

/-- Embeds avg_diurnal_cycle (diurnal_cycle.py lines 86-117): infer the
resolution, stack (lon, time), key every stacked sample by the
time-of-day of its approximate local time, and take the skipna mean of
every group; groups appear in ascending key order, as produced by the
groupby of the source. -/
def avg_diurnal_cycle (d : DSet) (keep center : Bool) :
    Except ResErr (List (ℤ × Option ℚ)) :=
  match get_time_resolution d.times with
  | Except.error e => Except.error e
  | Except.ok R =>
      Except.ok ((npUnique (stackedKeys d R keep center)).map
        (fun k => (k, meanSkipNA (bucketVals d R keep center k))))

/-- The raw offset of longitude 180 is exactly 12 hours. -/
theorem rawOffset_180 : rawOffset 180 = 43200 := by
  rw [rawOffset, truncZ]
  norm_num

/-- The raw offset of longitude 0 is zero. -/
theorem rawOffset_zero : rawOffset 0 = 0 := by
  rw [rawOffset, truncZ]
  norm_num

/-- The offset of longitude 0: zero, except that centering still adds
truncZ (R / 2). -/
theorem localTimeOffset_at_zero (R : ℤ) (keep center : Bool) :
    localTimeOffset 0 R keep center =
      if keep && center then truncZ ((R : ℚ) / 2) else 0 := by
  cases keep <;> cases center <;>
    simp [localTimeOffset, rawOffset_zero, Int.zero_fdiv]

/-- C1.  The claim states that with keep_resolution = true the snapped
offset is `fdiv raw R * R` (floor division by R, re-multiplied by R once).
The astype of line 42 already preserves the duration, storing
`fdiv raw R` in units of R seconds (= `fdiv raw R * R` seconds), so the
`* time_resolution_seconds` of line 44 scales the snapped offset by a
further factor R.  At longitude 180 with R = 21600 the code produces an
offset of 933120000 seconds where the claimed snapping yields 43200. -/
theorem C1_code_behavior :
    localTimeOffset 180 21600 true false = 933120000 ∧
    Int.fdiv (rawOffset 180) 21600 * 21600 = 43200 ∧
    (933120000 : ℤ) ≠ 43200 := by
  refine ⟨?_, ?_, by decide⟩
  · rw [localTimeOffset]
    simp [rawOffset_180]
  · rw [rawOffset_180]
    decide

/-- C2.  End-to-end example: the resolution inferred from four samples
6 hours apart starting at 2020-01-01T00:00Z (epoch second 1577836800) is
21600 seconds, but the local time computed for longitude 180 with
keep_resolution = true and center = false is 933120000 seconds (10800
days) ahead of the reference, not the claimed 12 hours (43200 s). -/
theorem C2_code_behavior :
    get_time_resolution [1577836800, 1577858400, 1577880000, 1577901600] =
      Except.ok 21600 ∧
    get_approx_localtime 1577836800 180 21600 true false =
      1577836800 + 933120000 ∧
    (1577836800 + 933120000 : ℤ) ≠ 1577836800 + 43200 := by
  refine ⟨rfl, ?_, by decide⟩
  rw [get_approx_localtime, localTimeOffset]
  simp [rawOffset_180]

/-- C3 counterexample.  On the time coordinate [0, 60, 60, 120] (one
duplicated timestamp) the sorted, deduplicated timestamps have a single
distinct gap, so the claim as stated demands success, yet the code
(which takes gaps of the coordinate as given) fails with the
non-uniform-sampling error. -/
theorem C3_counterexample :
    (npUnique (sortedDedupGaps [0, 60, 60, 120])).length = 1 ∧
    get_time_resolution [0, 60, 60, 120] = Except.error ResErr.nonUniform :=
  ⟨rfl, rfl⟩

/-- C3 amended.  Resolution inference fails with the
non-uniform-sampling error if and only if the distinct consecutive gaps
of the time coordinate, taken in the order given (the code neither sorts
nor deduplicates the timestamps), number more than one; when there is
exactly one distinct gap it is returned in whole seconds. -/
theorem C3_amended (ts : List ℤ) :
    (get_time_resolution ts = Except.error ResErr.nonUniform ↔
      1 < (npUnique (diffList ts)).length) ∧
    ∀ d, npUnique (diffList ts) = [d] →
      get_time_resolution ts = Except.ok d := by
  constructor
  · constructor
    · intro h
      by_contra hlen
      rw [get_time_resolution, if_neg hlen] at h
      rcases hu : npUnique (diffList ts) with _ | ⟨d, rest⟩ <;>
        rw [hu] at h <;> exact absurd h (by simp)
    · intro h
      rw [get_time_resolution, if_pos h]
  · intro d hd
    rw [get_time_resolution, hd]
    simp

/-- C3 witness.  Gaps [60, 60, 60] return 60; gaps [60, 120, 60] fail
with the non-uniform-sampling error. -/
theorem C3_amended_witness :
    get_time_resolution [0, 60, 120, 180] = Except.ok 60 ∧
    get_time_resolution [0, 60, 180, 240] =
      Except.error ResErr.nonUniform :=
  ⟨(C3_amended [0, 60, 120, 180]).2 60 rfl,
    (C3_amended [0, 60, 180, 240]).1.mpr (by decide)⟩

/-- C4 counterexample.  At longitude 0.001 the formula of the claim gives
0.24 seconds, but the raw offset computed by the code is the whole-second
truncation 0 (the astype to timedelta64[s] on line 39 truncates). -/
theorem C4_counterexample :
    rawOffset (1 / 1000) = 0 ∧
    ((1 / 1000 : ℚ) * 12 / 180 * 3600 ≠ ((0 : ℤ) : ℚ)) := by
  constructor
  · rw [rawOffset, truncZ]
    norm_num
  · norm_num

/-- C4 amended.  The raw offset is longitude * (12/180) * 3600 seconds
truncated toward zero to a whole number of seconds; it equals the exact
formula whenever the formula value is an integer, in particular +43200 s
(+12 h) at longitude 180 and -43200 s (-12 h) at longitude -180. -/
theorem C4_amended (lon : ℚ) (n : ℤ) (h : lon * 12 / 180 * 3600 = (n : ℚ)) :
    rawOffset lon = n := by
  rw [rawOffset, h, truncZ]
  split <;> simp

/-- C4 witness.  At longitude 180 the formula value is the integer 43200
and the code returns exactly that offset. -/
theorem C4_amended_witness :
    ((180 : ℚ) * 12 / 180 * 3600 = ((43200 : ℤ) : ℚ)) ∧
    rawOffset 180 = 43200 :=
  ⟨by norm_num, C4_amended 180 43200 (by norm_num)⟩

/-- C5 counterexample.  With R = 1 the claim demands a result exactly 1/2
second later, but all results are whole seconds: at reference 0 and
longitude 0 both settings return 0. -/
theorem C5_counterexample :
    get_approx_localtime 0 0 1 true true = 0 ∧
    ((get_approx_localtime 0 0 1 true true : ℚ) ≠
      (get_approx_localtime 0 0 1 true false : ℚ) + 1 / 2) := by
  have h1 : get_approx_localtime 0 0 1 true true = 0 := by
    rw [get_approx_localtime, localTimeOffset_at_zero]
    rw [truncZ]
    norm_num
  have h2 : get_approx_localtime 0 0 1 true false = 0 := by
    rw [get_approx_localtime, localTimeOffset_at_zero]
    simp
  refine ⟨h1, ?_⟩
  rw [h1, h2]
  norm_num

/-- C5 amended.  With keep_resolution = true, center = true returns a
result exactly truncZ (R / 2) seconds later than center = false on the
same inputs: R/2 when R is even, (R - 1)/2 when R is odd (line 48 casts
R/2 to whole seconds, truncating). -/
theorem C5_amended (ref : ℤ) (lon : ℚ) (R : ℤ) :
    get_approx_localtime ref lon R true true =
      get_approx_localtime ref lon R true false + truncZ ((R : ℚ) / 2) := by
  rw [get_approx_localtime, get_approx_localtime, localTimeOffset,
    localTimeOffset]
  simp
  ring

/-- C6.  With keep_resolution = false the center flag is ignored: the
centering branch is nested inside the keep_resolution branch (lines
41-48), so center = true is a no-op and no error is raised. -/
theorem C6_center_noop_without_keep (ref : ℤ) (lon : ℚ) (R : ℤ)
    (center : Bool) :
    get_approx_localtime ref lon R false center =
      get_approx_localtime ref lon R false false := rfl

/-- C7 counterexample.  At longitude 0 with R = 2, keep_resolution = true
and center = true, the local time is 1 second after the reference, not
equal to it: centering shifts longitude 0 as well. -/
theorem C7_counterexample :
    get_approx_localtime 0 0 2 true true ≠ 0 ∧
    get_approx_localtime 0 0 2 true true = 1 := by
  have h1 : get_approx_localtime 0 0 2 true true = 1 := by
    rw [get_approx_localtime, localTimeOffset_at_zero]
    rw [truncZ]
    norm_num
  exact ⟨by rw [h1]; decide, h1⟩

/-- C7 amended.  The local time computed for longitude 0 equals the
reference time whenever center = false or keep_resolution = false; when
keep_resolution and center are both true it exceeds the reference by
truncZ (R / 2) seconds. -/
theorem C7_amended (ref : ℤ) (R : ℤ) (keep center : Bool) :
    get_approx_localtime ref 0 R keep center =
      ref + (if keep && center then truncZ ((R : ℚ) / 2) else 0) := by
  rw [get_approx_localtime, localTimeOffset_at_zero]

/-- Membership after sorted insertion comes from the new element or the
original list. -/
theorem mem_of_mem_insertSorted {x a : ℤ} {l : List ℤ}
    (h : x ∈ insertSorted a l) : x = a ∨ x ∈ l := by
  induction l with
  | nil => exact Or.inl (List.mem_singleton.mp h)
  | cons b bs ih =>
    rw [insertSorted] at h
    split at h
    · simpa using h
    · rcases List.mem_cons.mp h with h1 | h2
      · exact Or.inr (by simp [h1])
      · rcases ih h2 with h3 | h4
        · exact Or.inl h3
        · exact Or.inr (List.mem_cons_of_mem _ h4)

/-- Sorting creates no new elements. -/
theorem mem_of_mem_sortInts {x : ℤ} {l : List ℤ}
    (h : x ∈ sortInts l) : x ∈ l := by
  induction l with
  | nil => exact absurd h (List.not_mem_nil x)
  | cons a as ih =>
    rw [sortInts] at h
    rcases mem_of_mem_insertSorted h with h1 | h2
    · simp [h1]
    · exact List.mem_cons_of_mem _ (ih h2)

/-- Deduplication creates no new elements. -/
theorem mem_of_mem_dedupSorted : ∀ (l : List ℤ) {x : ℤ},
    x ∈ dedupSorted l → x ∈ l
  | [], x, h => by exact absurd h (List.not_mem_nil x)
  | [a], x, h => h
  | a :: b :: rest, x, h => by
    simp only [dedupSorted] at h
    split at h
    · exact List.mem_cons_of_mem _ (mem_of_mem_dedupSorted (b :: rest) h)
    · rcases List.mem_cons.mp h with h1 | h2
      · simp [h1]
      · exact List.mem_cons_of_mem _ (mem_of_mem_dedupSorted (b :: rest) h2)

/-- Every value listed by the model of np.unique occurs in the input. -/
theorem mem_of_mem_npUnique {x : ℤ} {xs : List ℤ} (h : x ∈ npUnique xs) :
    x ∈ xs := by
  rw [npUnique] at h
  exact mem_of_mem_sortInts (mem_of_mem_dedupSorted _ h)

/-- Every stacked index pair is in range of both coordinates. -/
theorem sampleIdx_mem {d : DSet} {ij : ℕ × ℕ} (h : ij ∈ sampleIdx d) :
    ij.1 < d.lons.length ∧ ij.2 < d.times.length := by
  rw [sampleIdx] at h
  simp only [List.mem_flatMap, List.mem_map, List.mem_range] at h
  obtain ⟨i, hi, j, hj, hij⟩ := h
  rw [← hij]
  exact ⟨hi, hj⟩

/-- The skipna filter of a list of identical present values. -/
theorem filterMap_id_of_all_some {c : ℚ} : ∀ (vals : List (Option ℚ)),
    (∀ x ∈ vals, x = some c) →
    vals.filterMap id = List.replicate vals.length c
  | [], _ => rfl
  | v :: vs, h => by
    have hv : v = some c := h v (List.mem_cons_self v vs)
    subst hv
    simp only [List.filterMap_cons, List.length_cons, List.replicate_succ,
      id_eq]
    exact congrArg (c :: ·)
      (filterMap_id_of_all_some vs
        (fun x hx => h x (List.mem_cons_of_mem _ hx)))

/-- The skipna mean of a nonempty list of identical present values is
that value. -/
theorem meanSkipNA_const (c : ℚ) : ∀ (vals : List (Option ℚ)),
    vals ≠ [] → (∀ x ∈ vals, x = some c) → meanSkipNA vals = some c := by
  intro vals hne hall
  rcases vals with _ | ⟨v, vs⟩
  · exact absurd rfl hne
  · rw [meanSkipNA, filterMap_id_of_all_some _ hall]
    simp only [List.length_cons, List.replicate_succ]
    simp only [List.sum_cons, List.sum_replicate, List.length_cons,
      List.length_replicate, nsmul_eq_mul]
    congr 1
    push_cast
    have hn : ((vs.length : ℚ) + 1) ≠ 0 := by positivity
    field_simp
    ring

/-- C8.  When aggregation succeeds, each time-of-day bucket of the output
is the arithmetic mean of the present values of the stacked (lon, time)
samples landing in that bucket: a bucket whose samples are all missing
yields a missing result rather than an error, and otherwise the output is
the mean of the present values only (so one missing sample is simply
excluded from its bucket mean). -/
theorem C8_bucket_mean (d : DSet) (keep center : Bool) (R : ℤ)
    (out : List (ℤ × Option ℚ))
    (hR : get_time_resolution d.times = Except.ok R)
    (hout : avg_diurnal_cycle d keep center = Except.ok out) :
    ∀ k v, (k, v) ∈ out →
      ((∀ x ∈ bucketVals d R keep center k, x = none) → v = none) ∧
      ∀ p ps, (bucketVals d R keep center k).filterMap id = p :: ps →
        v = some ((p :: ps).sum / ((p :: ps).length : ℚ)) := by
  rw [avg_diurnal_cycle, hR] at hout
  have hout2 := Except.ok.inj hout
  intro k v hkv
  rw [← hout2] at hkv
  obtain ⟨a, ha, hak⟩ := List.mem_map.mp hkv
  injection hak with h1 h2
  subst h1
  subst h2
  constructor
  · intro hallnone
    rw [meanSkipNA]
    have hnil : (bucketVals d R keep center a).filterMap id = [] := by
      rw [List.filterMap_eq_nil_iff]
      intro x hx
      rw [hallnone x hx]
      rfl
    rw [hnil]
  · intro p ps hp
    rw [meanSkipNA, hp]

/-- Concrete dataset for the C8 witness: two samples at one longitude,
the first missing, the second equal to 5. -/
def W8 : DSet :=
  ⟨[0, 60], [0], fun _ j => if j = 1 then some 5 else none⟩

/-- Expected aggregation output for the C8 witness dataset. -/
def W8out : List (ℤ × Option ℚ) :=
  [(0, none), (60, some 5)]

/-- Keys of the two stacked samples of the C8 witness dataset. -/
theorem W8_keys : stackedKeys W8 60 true false = [0, 60] := by
  simp +decide [stackedKeys, sampleIdx, sampleKey, W8, timeOfDay,
    get_approx_localtime, localTimeOffset_at_zero, List.range_succ]

/-- Bucket 0 of the C8 witness dataset holds the single missing value. -/
theorem W8_bucket0 : bucketVals W8 60 true false 0 = [none] := by
  simp +decide [bucketVals, sampleIdx, sampleKey, W8, timeOfDay,
    get_approx_localtime, localTimeOffset_at_zero, List.range_succ,
    List.filter]

/-- Bucket 60 of the C8 witness dataset holds the single value 5. -/
theorem W8_bucket60 : bucketVals W8 60 true false 60 = [some 5] := by
  simp +decide [bucketVals, sampleIdx, sampleKey, W8, timeOfDay,
    get_approx_localtime, localTimeOffset_at_zero, List.range_succ,
    List.filter]

/-- Aggregation of the C8 witness dataset, fully evaluated. -/
theorem W8_eval : avg_diurnal_cycle W8 true false = Except.ok W8out := by
  have hR : get_time_resolution W8.times = Except.ok 60 := rfl
  have hu : npUnique [0, 60] = [0, 60] := rfl
  simp [avg_diurnal_cycle, hR, W8_keys, hu, W8_bucket0, W8_bucket60,
    meanSkipNA, W8out]

/-- C8 witness: the hypotheses of C8_bucket_mean hold for the concrete
dataset W8 and its evaluated output, and the conclusion follows from the
theorem applied there. -/
theorem C8_bucket_mean_witness :
    get_time_resolution W8.times = Except.ok 60 ∧
    avg_diurnal_cycle W8 true false = Except.ok W8out ∧
    ∀ k v, (k, v) ∈ W8out →
      ((∀ x ∈ bucketVals W8 60 true false k, x = none) → v = none) ∧
      ∀ p ps, (bucketVals W8 60 true false k).filterMap id = p :: ps →
        v = some ((p :: ps).sum / ((p :: ps).length : ℚ)) :=
  ⟨rfl, W8_eval, C8_bucket_mean W8 true false 60 W8out rfl W8_eval⟩

/-- C9.  If every value of the dataset is the same constant c, then every
bucket of a successful aggregation equals c: the diurnal-free dataset
averages to itself in every time-of-day group. -/
theorem C9_constant (d : DSet) (c : ℚ) (keep center : Bool)
    (out : List (ℤ × Option ℚ))
    (hval : ∀ i j, i < d.lons.length → j < d.times.length →
      d.val i j = some c)
    (hout : avg_diurnal_cycle d keep center = Except.ok out) :
    ∀ k v, (k, v) ∈ out → v = some c := by
  rcases hR : get_time_resolution d.times with e | R
  · rw [avg_diurnal_cycle, hR] at hout
    exact absurd hout (by simp)
  · rw [avg_diurnal_cycle, hR] at hout
    have hout2 := Except.ok.inj hout
    intro k v hkv
    rw [← hout2] at hkv
    obtain ⟨a, ha, hak⟩ := List.mem_map.mp hkv
    injection hak with h1 h2
    subst h1
    subst h2
    have hk : a ∈ stackedKeys d R keep center := mem_of_mem_npUnique ha
    obtain ⟨ij, hij, hkey⟩ := List.mem_map.mp hk
    apply meanSkipNA_const
    · have hmem : d.val ij.1 ij.2 ∈ bucketVals d R keep center a := by
        rw [bucketVals]
        exact List.mem_map_of_mem _
          (List.mem_filter.mpr ⟨hij, by simp [hkey]⟩)
      exact List.ne_nil_of_mem hmem
    · intro x hx
      rw [bucketVals] at hx
      obtain ⟨ij2, hij2, hx2⟩ := List.mem_map.mp hx
      obtain ⟨hb1, hb2⟩ := sampleIdx_mem (List.mem_filter.mp hij2).1
      rw [← hx2]
      exact hval ij2.1 ij2.2 hb1 hb2

/-- Concrete dataset for the C9 witness: two samples at one longitude,
both equal to 7. -/
def W9 : DSet :=
  ⟨[0, 60], [0], fun _ _ => some 7⟩

/-- Expected aggregation output for the C9 witness dataset. -/
def W9out : List (ℤ × Option ℚ) :=
  [(0, some 7), (60, some 7)]

/-- Aggregation of the C9 witness dataset, fully evaluated. -/
theorem W9_eval : avg_diurnal_cycle W9 true false = Except.ok W9out := by
  have hR : get_time_resolution W9.times = Except.ok 60 := rfl
  have hkeys : stackedKeys W9 60 true false = [0, 60] := by
    simp +decide [stackedKeys, sampleIdx, sampleKey, W9, timeOfDay,
      get_approx_localtime, localTimeOffset_at_zero, List.range_succ]
  have hu : npUnique [0, 60] = [0, 60] := rfl
  have hb0 : bucketVals W9 60 true false 0 = [some 7] := by
    simp +decide [bucketVals, sampleIdx, sampleKey, W9, timeOfDay,
      get_approx_localtime, localTimeOffset_at_zero, List.range_succ,
      List.filter]
  have hb60 : bucketVals W9 60 true false 60 = [some 7] := by
    simp +decide [bucketVals, sampleIdx, sampleKey, W9, timeOfDay,
      get_approx_localtime, localTimeOffset_at_zero, List.range_succ,
      List.filter]
  simp [avg_diurnal_cycle, hR, hkeys, hu, hb0, hb60, meanSkipNA, W9out]

/-- C9 witness: the constant dataset W9 aggregates to the constant 7 in
both of its buckets, by C9_constant applied at W9. -/
theorem C9_constant_witness :
    avg_diurnal_cycle W9 true false = Except.ok W9out ∧
    ∀ k v, (k, v) ∈ W9out → v = some (7 : ℚ) :=
  ⟨W9_eval, C9_constant W9 7 true false W9out (fun _ _ _ _ => rfl) W9_eval⟩

/-- C10.  On a time coordinate with fewer than two entries the diff array
is empty, the length guard does not fire, and indexing the empty unique
array fails with an index error, so no resolution is returned and
avg_diurnal_cycle cannot process a single-time-sample dataset. -/
theorem C10_short_time (ts : List ℤ) (h : ts.length < 2) :
    get_time_resolution ts = Except.error ResErr.indexError := by
  rcases ts with _ | ⟨a, _ | ⟨b, rest⟩⟩
  · rfl
  · rfl
  · simp only [List.length_cons] at h
    omega

/-- C10 witness: a one-element time coordinate fails with the index
error, by C10_short_time applied at that coordinate. -/
theorem C10_short_time_witness :
    ([(1577836800 : ℤ)].length < 2) ∧
    get_time_resolution [1577836800] = Except.error ResErr.indexError :=
  ⟨by decide, C10_short_time [1577836800] (by decide)⟩
